import Mathlib

/-!
Shallow embedding of the three Soroban contracts of fundhub-build-rust
(`contracts/funding-escrow`, `contracts/milestone-manager`,
`contracts/project-registry`) and proofs of the specification claims.

Modelling conventions:
* `BytesN<32>` handles (project ids, milestone ids, attestation public keys)
  are modelled as `Nat` (opaque identifiers with decidable equality); the
  all-zero array `[0u8; 32]` is modelled as `0`.
* `Address` is modelled as `Nat`.
* `i128` amounts are modelled as `Int`, `u64`/`u32` as `Nat` (Soroban
  contracts trap on arithmetic overflow, rolling back the invocation, so
  only the non-overflowing executions are modelled).
* `Bytes` (attestation blobs) are modelled as `List Nat` (byte lists; the
  contracts only inspect `len()`).
* A contract's persistent/instance storage is modelled as a record of the
  `DataKey` variants the contract declares; per-entity keyed records become
  association lists updated in place (`AList.get` / `AList.set`).
* Each state-changing entry point is translated in the source's control-flow
  order and returns `(Except String Unit) × State` (plus the list of token
  transfers it performed, for the escrow contract): an early `return Err`
  in the Rust yields `.error` together with the storage as already mutated
  at that point.  `panic!` (only in `initialize`, which aborts the whole
  invocation) is likewise modelled as an `.error` result with the panic
  message and unchanged storage.
* `require_auth()` aborts the invocation environment-side when the proof is
  missing, before the body continues; the embedding models the authorized
  executions (the unauthorized ones leave storage untouched by assumption
  of the runtime, not of contract code).
* `env.ledger().timestamp()` is passed in as an explicit `Nat` parameter.
-/

namespace FundHub

/-- A fungible-token transfer performed through `token::Client::transfer`:
the token contract invoked, the source account, the destination account and
the amount moved. -/
structure Transfer where
  token : Nat
  source : Nat
  dest : Nat
  amount : Int
deriving Repr, DecidableEq

namespace AList

/-- Storage read of a keyed record: first binding of `k`, as
`env.storage().persistent().get(&key)`. -/
def get {α : Type} (l : List (Nat × α)) (k : Nat) : Option α :=
  match l with
  | [] => none
  | (k', v) :: t => if k' = k then some v else get t k

/-- Storage write of a keyed record: replace the first binding of `k`, or
append one, as `env.storage().persistent().set(&key, &v)`. -/
def set {α : Type} (l : List (Nat × α)) (k : Nat) (v : α) : List (Nat × α) :=
  match l with
  | [] => [(k, v)]
  | (k', v') :: t => if k' = k then (k', v) :: t else (k', v') :: set t k v

end AList

namespace FundingEscrow

/-- `EscrowInfo` record of `contracts/funding-escrow/src/lib.rs`. -/
structure EscrowInfo where
  project_id : Nat
  total_deposited : Int
  total_claimed : Int
  attestation_pubkey : Nat
deriving Repr, DecidableEq

/-- The contract's storage: `DataKey::Token` (instance) and the
`DataKey::Escrow(project_id)` records (persistent). -/
structure State where
  token : Option Nat
  escrows : List (Nat × EscrowInfo)
deriving Repr, DecidableEq

/-- Storage of a freshly deployed contract instance: nothing stored. -/
def State.empty : State := { token := none, escrows := [] }

/-- `FundingEscrow::initialize(env, token, attestation_pubkey)`.  Panics
with "Already initialized" when `DataKey::Token` is already present;
otherwise stores the token address.  NOTE (faithful to the source): despite
the comment "Store attestation key at a global level for verification" the
function body never writes `attestation_pubkey` anywhere — there is not even
a `DataKey` variant for it — so the parameter is dropped. -/
def init (s : State) (token : Nat) (attestation_pubkey : Nat) :
    Except String Unit × State :=
  if (s.token).isSome then
    (.error "Already initialized", s)
  else
    (.ok (), { s with token := some token })

/-- Default `EscrowInfo` used by `deposit`'s `unwrap_or` when no escrow
record exists yet for the project. -/
def freshEscrow (project_id : Nat) : EscrowInfo :=
  { project_id := project_id
    total_deposited := 0
    total_claimed := 0
    attestation_pubkey := 0 }

/-- `FundingEscrow::deposit(env, from, project_id, amount, memo)`:
requires auth of `from`; rejects `amount <= 0`; requires the token to be
configured; transfers `amount` from `from` to the contract address `self`;
then increments `total_deposited` of the project's escrow record (created
lazily with zeroed totals). -/
def deposit (self : Nat) (s : State) (from_ : Nat) (project_id : Nat)
    (amount : Int) (_memo : String) :
    Except String Unit × State × List Transfer :=
  if amount ≤ 0 then
    (.error "Amount must be positive", s, [])
  else
    match s.token with
    | none => (.error "Not initialized", s, [])
    | some token =>
      let transfers := [⟨token, from_, self, amount⟩]
      let escrow_info := (AList.get s.escrows project_id).getD (freshEscrow project_id)
      let escrow_info := { escrow_info with
        total_deposited := escrow_info.total_deposited + amount }
      (.ok (), { s with escrows := AList.set s.escrows project_id escrow_info }, transfers)

/-- `FundingEscrow::claim(env, project_id, amount, attestation)`: rejects
`amount <= 0`; requires the escrow record to exist; rejects
`amount > available`; rejects attestations shorter than 64 bytes (the
length check appears twice in the source and both occurrences are kept);
then increments `total_claimed`.  No token transfer is performed. -/
def claim (s : State) (project_id : Nat) (amount : Int)
    (attestation : List Nat) :
    Except String Unit × State × List Transfer :=
  if amount ≤ 0 then
    (.error "Amount must be positive", s, [])
  else
    match AList.get s.escrows project_id with
    | none => (.error "Project not found", s, [])
    | some escrow_info =>
      let available := escrow_info.total_deposited - escrow_info.total_claimed
      if available < amount then
        (.error "Insufficient balance", s, [])
      else if attestation.length < 64 then
        (.error "Invalid attestation", s, [])
      else if attestation.length < 64 then
        (.error "Invalid attestation", s, [])
      else
        let escrow_info := { escrow_info with
          total_claimed := escrow_info.total_claimed + amount }
        (.ok (), { s with escrows := AList.set s.escrows project_id escrow_info }, [])

/-- `FundingEscrow::release_to_recipient(env, project_id, recipient,
amount, attestation)`: same validation as `claim`, then transfers `amount`
from the contract address `self` to `recipient` before incrementing
`total_claimed`. -/
def release_to_recipient (self : Nat) (s : State) (project_id : Nat)
    (recipient : Nat) (amount : Int) (attestation : List Nat) :
    Except String Unit × State × List Transfer :=
  if amount ≤ 0 then
    (.error "Amount must be positive", s, [])
  else
    match AList.get s.escrows project_id with
    | none => (.error "Project not found", s, [])
    | some escrow_info =>
      let available := escrow_info.total_deposited - escrow_info.total_claimed
      if available < amount then
        (.error "Insufficient balance", s, [])
      else if attestation.length < 64 then
        (.error "Invalid attestation", s, [])
      else
        match s.token with
        | none => (.error "Not initialized", s, [])
        | some token =>
          let transfers := [⟨token, self, recipient, amount⟩]
          let escrow_info := { escrow_info with
            total_claimed := escrow_info.total_claimed + amount }
          (.ok (), { s with escrows := AList.set s.escrows project_id escrow_info },
            transfers)

/-- `FundingEscrow::get_balance(env, project_id)`: `total_deposited -
total_claimed` of the escrow record, `0` when none exists. -/
def get_balance (s : State) (project_id : Nat) : Int :=
  match AList.get s.escrows project_id with
  | some escrow_info => escrow_info.total_deposited - escrow_info.total_claimed
  | none => 0

/-- `FundingEscrow::get_escrow_info(env, project_id)`. -/
def get_escrow_info (s : State) (project_id : Nat) : Option EscrowInfo :=
  AList.get s.escrows project_id

/-- One invocation of a state-changing FundingEscrow entry point, with its
arguments. -/
inductive Op where
  | deposit (from_ project_id : Nat) (amount : Int) (memo : String)
  | claim (project_id : Nat) (amount : Int) (attestation : List Nat)
  | release (project_id recipient : Nat) (amount : Int) (attestation : List Nat)
deriving Repr

/-- Run one invocation against the storage; a failed invocation commits the
storage it returned (provably equal to the input storage). -/
def step (self : Nat) (s : State) (op : Op) : State :=
  match op with
  | .deposit f p a m => (deposit self s f p a m).2.1
  | .claim p a att => (claim s p a att).2.1
  | .release p r a att => (release_to_recipient self s p r a att).2.1

/-- Run a sequence of invocations. -/
def run (self : Nat) (s : State) (ops : List Op) : State :=
  ops.foldl (step self) s

/-- The escrow-account invariant of the spec: every stored record has
`total_claimed ≤ total_deposited` (and non-negative `total_claimed`, which
holds of every reachable state and makes the invariant inductive). -/
def Inv (s : State) : Prop :=
  ∀ p info, AList.get s.escrows p = some info →
    0 ≤ info.total_claimed ∧ info.total_claimed ≤ info.total_deposited

/-- The project's `total_deposited` as observed in storage (0 when no
record exists, matching the lazily-created account). -/
def depositedOf (s : State) (p : Nat) : Int :=
  ((AList.get s.escrows p).map (·.total_deposited)).getD 0

/-- The project's `total_claimed` as observed in storage. -/
def claimedOf (s : State) (p : Nat) : Int :=
  ((AList.get s.escrows p).map (·.total_claimed)).getD 0

end FundingEscrow

namespace MilestoneManager

/-- `MilestoneInfo` record of `contracts/milestone-manager/src/lib.rs`. -/
structure MilestoneInfo where
  project_id : Nat
  milestone_id : Nat
  amount_stroops : Int
  proof_required : Bool
  released : Bool
  released_at : Nat
  recipient : Nat
deriving Repr, DecidableEq

/-- `ProjectMilestones` summary record (per project). -/
structure ProjectMilestones where
  project_id : Nat
  total_milestones : Nat
  released_milestones : Nat
  total_amount : Int
  released_amount : Int
deriving Repr, DecidableEq

/-- The contract's storage: instance keys `DataKey::AdminKey` and
`DataKey::AttestationKey`, plus the persistent `DataKey::Milestone(id)` and
`DataKey::ProjectMilestones(project_id)` records. -/
structure State where
  adminKey : Option Nat
  attestationKey : Option Nat
  milestones : List (Nat × MilestoneInfo)
  projects : List (Nat × ProjectMilestones)
deriving Repr, DecidableEq

/-- Storage of a freshly deployed contract instance. -/
def State.empty : State :=
  { adminKey := none, attestationKey := none, milestones := [], projects := [] }

/-- `MilestoneManager::initialize(env, admin, attestation_key)`: panics
with "Already initialized" when `DataKey::AdminKey` is present, otherwise
stores admin and attestation key. -/
def init (s : State) (admin : Nat) (attestation_key : Nat) :
    Except String Unit × State :=
  if (s.adminKey).isSome then
    (.error "Already initialized", s)
  else
    (.ok (), { s with adminKey := some admin, attestationKey := some attestation_key })

/-- Default `ProjectMilestones` used by the `unwrap_or` of both
`register_milestone` and `release_milestone`. -/
def freshSummary (project_id : Nat) : ProjectMilestones :=
  { project_id := project_id
    total_milestones := 0
    released_milestones := 0
    total_amount := 0
    released_amount := 0 }

/-- `MilestoneManager::register_milestone(env, project_id, milestone_id,
amount_stroops, proof_required, recipient)`: requires the stored admin
(`Not initialized` if absent) and the admin's auth; rejects
`amount_stroops <= 0`; rejects an existing `milestone_id`; then stores the
milestone (with `released = false`, `released_at = 0`) and increments the
project summary's `total_milestones` and `total_amount`. -/
def register_milestone (s : State) (project_id milestone_id : Nat)
    (amount_stroops : Int) (proof_required : Bool) (recipient : Nat) :
    Except String Unit × State :=
  match s.adminKey with
  | none => (.error "Not initialized", s)
  | some _admin =>
    if amount_stroops ≤ 0 then
      (.error "Amount must be positive", s)
    else if (AList.get s.milestones milestone_id).isSome then
      (.error "Milestone already exists", s)
    else
      let milestone_info : MilestoneInfo :=
        { project_id := project_id
          milestone_id := milestone_id
          amount_stroops := amount_stroops
          proof_required := proof_required
          released := false
          released_at := 0
          recipient := recipient }
      let s := { s with milestones := AList.set s.milestones milestone_id milestone_info }
      let project_milestones := (AList.get s.projects project_id).getD (freshSummary project_id)
      let project_milestones := { project_milestones with
        total_milestones := project_milestones.total_milestones + 1
        total_amount := project_milestones.total_amount + amount_stroops }
      (.ok (), { s with projects := AList.set s.projects project_id project_milestones })

/-- `MilestoneManager::release_milestone(env, milestone_id,
attestation_signature)`: requires the milestone to exist; rejects an
already-released milestone; requires the stored attestation key; rejects
signatures shorter than 64 bytes; then sets `released = true`,
`released_at = env.ledger().timestamp()` (passed here as `timestamp`) and
increments the project summary's `released_milestones` and
`released_amount`. -/
def release_milestone (s : State) (milestone_id : Nat)
    (attestation_signature : List Nat) (timestamp : Nat) :
    Except String Unit × State :=
  match AList.get s.milestones milestone_id with
  | none => (.error "Milestone not found", s)
  | some milestone_info =>
    if milestone_info.released then
      (.error "Milestone already released", s)
    else
      match s.attestationKey with
      | none => (.error "Not initialized", s)
      | some _attestation_key =>
        if attestation_signature.length < 64 then
          (.error "Invalid attestation signature", s)
        else
          let milestone_info := { milestone_info with
            released := true
            released_at := timestamp }
          let s := { s with
            milestones := AList.set s.milestones milestone_id milestone_info }
          let project_milestones :=
            (AList.get s.projects milestone_info.project_id).getD
              (freshSummary milestone_info.project_id)
          let project_milestones := { project_milestones with
            released_milestones := project_milestones.released_milestones + 1
            released_amount := project_milestones.released_amount + milestone_info.amount_stroops }
          (.ok (), { s with
            projects := AList.set s.projects milestone_info.project_id project_milestones })

/-- `MilestoneManager::get_milestone(env, milestone_id)`. -/
def get_milestone (s : State) (milestone_id : Nat) : Option MilestoneInfo :=
  AList.get s.milestones milestone_id

/-- `MilestoneManager::get_project_milestones(env, project_id)`. -/
def get_project_milestones (s : State) (project_id : Nat) : Option ProjectMilestones :=
  AList.get s.projects project_id

/-- `MilestoneManager::can_release_milestone(env, milestone_id)`:
`!released && (!proof_required || released_at > 0)` for a stored
milestone, `false` otherwise. -/
def can_release_milestone (s : State) (milestone_id : Nat) : Bool :=
  match AList.get s.milestones milestone_id with
  | some milestone_info =>
    !milestone_info.released &&
      (!milestone_info.proof_required || decide (milestone_info.released_at > 0))
  | none => false

/-- `MilestoneManager::get_project_released_amount(env, project_id)`. -/
def get_project_released_amount (s : State) (project_id : Nat) : Int :=
  match AList.get s.projects project_id with
  | some project_milestones => project_milestones.released_amount
  | none => 0

/-- One invocation of a state-changing MilestoneManager entry point.  The
`release` constructor carries the ledger timestamp of its invocation. -/
inductive Op where
  | init (admin attestation_key : Nat)
  | register (project_id milestone_id : Nat) (amount : Int)
      (proof_required : Bool) (recipient : Nat)
  | release (milestone_id : Nat) (attestation : List Nat) (timestamp : Nat)
deriving Repr

/-- Run one invocation against the storage. -/
def step (s : State) (op : Op) : State :=
  match op with
  | .init a k => (init s a k).2
  | .register p m a pr r => (register_milestone s p m a pr r).2
  | .release m att ts => (release_milestone s m att ts).2

/-- Run a sequence of invocations. -/
def run (s : State) (ops : List Op) : State :=
  ops.foldl step s

/-- The stored milestone records belonging to project `p`. -/
def projList (l : List (Nat × MilestoneInfo)) (p : Nat) : List MilestoneInfo :=
  (l.filter (fun kv => kv.2.project_id == p)).map (·.2)

/-- Number of stored milestones of project `p`. -/
def mCount (l : List (Nat × MilestoneInfo)) (p : Nat) : Nat :=
  (projList l p).length

/-- Sum of `amount_stroops` over the stored milestones of project `p`. -/
def mSum (l : List (Nat × MilestoneInfo)) (p : Nat) : Int :=
  ((projList l p).map (·.amount_stroops)).sum

/-- Number of released stored milestones of project `p`. -/
def rCount (l : List (Nat × MilestoneInfo)) (p : Nat) : Nat :=
  ((projList l p).filter (·.released)).length

/-- Sum of `amount_stroops` over the released stored milestones of
project `p`. -/
def rSum (l : List (Nat × MilestoneInfo)) (p : Nat) : Int :=
  (((projList l p).filter (·.released)).map (·.amount_stroops)).sum

/-- The summary record observed for project `p` (the `unwrap_or` default
when none is stored). -/
def summaryOf (s : State) (p : Nat) : ProjectMilestones :=
  (AList.get s.projects p).getD (freshSummary p)

/-- Every project summary's counters and sums agree with the count/sum over
that project's stored milestone records. -/
def SummaryInv (s : State) : Prop :=
  ∀ p, (summaryOf s p).total_milestones = mCount s.milestones p ∧
    (summaryOf s p).released_milestones = rCount s.milestones p ∧
    (summaryOf s p).total_amount = mSum s.milestones p ∧
    (summaryOf s p).released_amount = rSum s.milestones p

/-- Every stored milestone has a positive amount (enforced by
`register_milestone`). -/
def AmtPos (s : State) : Prop :=
  ∀ kv ∈ s.milestones, 0 < kv.2.amount_stroops

/-- The inductive MilestoneManager state invariant. -/
def MMInv (s : State) : Prop := SummaryInv s ∧ AmtPos s

/-- Every stored milestone satisfies `released_at > 0` iff
`released = true`. -/
def RelIff (s : State) : Prop :=
  ∀ k info, AList.get s.milestones k = some info →
    (0 < info.released_at ↔ info.released = true)

/-- Milestone `m` is stored and marked released in `s`. -/
def releasedIn (s : State) (m : Nat) : Prop :=
  ∃ info, AList.get s.milestones m = some info ∧ info.released = true

/-- All `release` invocations in the sequence carry a positive ledger
timestamp (ledger time on a live network is a positive Unix time). -/
def PosTimes (ops : List Op) : Prop :=
  ∀ op ∈ ops, ∀ m att ts, op = Op.release m att ts → 0 < ts

end MilestoneManager

namespace ProjectRegistry

/-- `ProjectInfo` record of `contracts/project-registry/src/lib.rs`. -/
structure ProjectInfo where
  owner : Nat
  project_id : Nat
  metadata_uri : String
  registered_at : Nat
deriving Repr, DecidableEq

/-- The contract's storage: the persistent `DataKey::Project(id)` records
and the persistent `DataKey::ProjectCount` counter (absent until the first
successful registration; reads use `unwrap_or(0)`). -/
structure State where
  projects : List (Nat × ProjectInfo)
  projectCount : Option Nat
deriving Repr, DecidableEq

/-- Storage of a freshly deployed contract instance. -/
def State.empty : State := { projects := [], projectCount := none }

/-- `ProjectRegistry::register(env, owner, project_id, metadata_uri)`:
requires auth of `owner`; rejects an already-registered `project_id`; then
stores the project stamped with the ledger timestamp and increments the
count. -/
def register (s : State) (owner project_id : Nat) (metadata_uri : String)
    (timestamp : Nat) : Except String Unit × State :=
  if (AList.get s.projects project_id).isSome then
    (.error "Project already registered", s)
  else
    let project_info : ProjectInfo :=
      { owner := owner
        project_id := project_id
        metadata_uri := metadata_uri
        registered_at := timestamp }
    let s := { s with projects := AList.set s.projects project_id project_info }
    let count := (s.projectCount).getD 0
    (.ok (), { s with projectCount := some (count + 1) })

/-- `ProjectRegistry::get_project(env, project_id)`. -/
def get_project (s : State) (project_id : Nat) : Option ProjectInfo :=
  AList.get s.projects project_id

/-- `ProjectRegistry::update_metadata(env, project_id, new_metadata_uri)`:
requires the project to exist and the stored owner's auth; overwrites
`metadata_uri` only. -/
def update_metadata (s : State) (project_id : Nat) (new_metadata_uri : String) :
    Except String Unit × State :=
  match AList.get s.projects project_id with
  | none => (.error "Project not found", s)
  | some project_info =>
    let project_info := { project_info with metadata_uri := new_metadata_uri }
    (.ok (), { s with projects := AList.set s.projects project_id project_info })

/-- `ProjectRegistry::get_project_count(env)`. -/
def get_project_count (s : State) : Nat :=
  (s.projectCount).getD 0

/-- One invocation of a state-changing ProjectRegistry entry point. -/
inductive Op where
  | register (owner project_id : Nat) (metadata_uri : String) (timestamp : Nat)
  | update (project_id : Nat) (new_metadata_uri : String)
deriving Repr

/-- Run one invocation against the storage. -/
def step (s : State) (op : Op) : State :=
  match op with
  | .register o p m ts => (register s o p m ts).2
  | .update p m => (update_metadata s p m).2

/-- Run a sequence of invocations. -/
def run (s : State) (ops : List Op) : State :=
  ops.foldl step s

/-- The inductive ProjectRegistry invariant: the global counter equals the
number of stored project records, and stored project ids are distinct. -/
def CInv (s : State) : Prop :=
  get_project_count s = s.projects.length ∧ (s.projects.map Prod.fst).Nodup

end ProjectRegistry

/-- The token transfers performed by one FundingEscrow invocation. -/
def FundingEscrow.transfersOf (self : Nat) (s : FundingEscrow.State)
    (op : FundingEscrow.Op) : List Transfer :=
  match op with
  | .deposit f p a m => (FundingEscrow.deposit self s f p a m).2.2
  | .claim p a att => (FundingEscrow.claim s p a att).2.2
  | .release p r a att => (FundingEscrow.release_to_recipient self s p r a att).2.2

namespace AList

theorem get_set_self {α : Type} (l : List (Nat × α)) (k : Nat) (v : α) :
    get (set l k v) k = some v := by
  induction l with
  | nil => simp [get, set]
  | cons hd t ih =>
    obtain ⟨k', v'⟩ := hd
    by_cases hk : k' = k
    · simp [set, hk, get]
    · simp [set, hk, get, ih]

theorem get_set_ne {α : Type} (l : List (Nat × α)) (k k' : Nat) (v : α)
    (h : k' ≠ k) : get (set l k v) k' = get l k' := by
  induction l with
  | nil => simp [get, set, Ne.symm h]
  | cons hd t ih =>
    obtain ⟨k'', v''⟩ := hd
    by_cases hk : k'' = k
    · subst hk
      simp [set, get, Ne.symm h]
    · simp [set, hk, get, ih]

theorem get_none_iff {α : Type} (l : List (Nat × α)) (k : Nat) :
    get l k = none ↔ k ∉ l.map Prod.fst := by
  induction l with
  | nil => simp [get]
  | cons hd t ih =>
    obtain ⟨k', v'⟩ := hd
    by_cases hk : k' = k
    · subst hk; simp [get]
    · simp [get, hk, ih, Ne.symm hk]

theorem set_of_get_none {α : Type} (l : List (Nat × α)) (k : Nat) (v : α)
    (h : get l k = none) : set l k v = l ++ [(k, v)] := by
  induction l with
  | nil => simp [set]
  | cons hd t ih =>
    obtain ⟨k', v'⟩ := hd
    by_cases hk : k' = k
    · subst hk; simp [get] at h
    · simp [get, hk] at h
      simp [set, hk, ih h]

theorem get_some_decomp {α : Type} (l : List (Nat × α)) (k : Nat) (w : α)
    (h : get l k = some w) :
    ∃ l1 l2, l = l1 ++ (k, w) :: l2 ∧ k ∉ l1.map Prod.fst ∧
      ∀ v, set l k v = l1 ++ (k, v) :: l2 := by
  induction l with
  | nil => simp [get] at h
  | cons hd t ih =>
    obtain ⟨k', v'⟩ := hd
    by_cases hk : k' = k
    · subst hk
      simp [get] at h
      subst h
      exact ⟨[], t, by simp, by simp, fun v => by simp [set]⟩
    · simp [get, hk] at h
      obtain ⟨l1, l2, he, hn, hs⟩ := ih h
      refine ⟨(k', v') :: l1, l2, by simp [he], ?_, fun v => by simp [set, hk, hs v]⟩
      simp [hn, Ne.symm hk]

end AList

namespace FundingEscrow

theorem depositedOf_def (s : State) (p : Nat) :
    depositedOf s p =
      ((AList.get s.escrows p).getD (freshEscrow p)).total_deposited := by
  unfold depositedOf freshEscrow
  cases AList.get s.escrows p <;> simp

theorem claimedOf_def (s : State) (p : Nat) :
    claimedOf s p =
      ((AList.get s.escrows p).getD (freshEscrow p)).total_claimed := by
  unfold claimedOf freshEscrow
  cases AList.get s.escrows p <;> simp

theorem inv_getD (s : State) (h : Inv s) (p : Nat) :
    0 ≤ ((AList.get s.escrows p).getD (freshEscrow p)).total_claimed ∧
    ((AList.get s.escrows p).getD (freshEscrow p)).total_claimed ≤
      ((AList.get s.escrows p).getD (freshEscrow p)).total_deposited := by
  cases hg : AList.get s.escrows p with
  | none => simp [freshEscrow]
  | some w => simpa using h p w hg

theorem inv_mono_update (s : State) (h : Inv s) (p : Nat) (w : EscrowInfo)
    (hle : 0 ≤ w.total_claimed) (hcd : w.total_claimed ≤ w.total_deposited)
    (hdep : ((AList.get s.escrows p).getD (freshEscrow p)).total_deposited ≤
      w.total_deposited)
    (hcl : ((AList.get s.escrows p).getD (freshEscrow p)).total_claimed ≤
      w.total_claimed) :
    Inv { s with escrows := AList.set s.escrows p w } ∧
    ∀ q, depositedOf s q ≤ depositedOf { s with escrows := AList.set s.escrows p w } q ∧
      claimedOf s q ≤ claimedOf { s with escrows := AList.set s.escrows p w } q := by
  constructor
  · intro q info hq
    by_cases hqp : q = p
    · subst hqp
      rw [show ({ s with escrows := AList.set s.escrows q w } : State).escrows =
        AList.set s.escrows q w from rfl, AList.get_set_self] at hq
      cases hq
      exact ⟨hle, hcd⟩
    · rw [show ({ s with escrows := AList.set s.escrows p w } : State).escrows =
        AList.set s.escrows p w from rfl, AList.get_set_ne _ _ _ _ hqp] at hq
      exact h q info hq
  · intro q
    by_cases hqp : q = p
    · subst hqp
      rw [depositedOf_def, depositedOf_def, claimedOf_def, claimedOf_def]
      rw [show ({ s with escrows := AList.set s.escrows q w } : State).escrows =
        AList.set s.escrows q w from rfl, AList.get_set_self]
      exact ⟨hdep, hcl⟩
    · rw [depositedOf_def, depositedOf_def, claimedOf_def, claimedOf_def]
      rw [show ({ s with escrows := AList.set s.escrows p w } : State).escrows =
        AList.set s.escrows p w from rfl, AList.get_set_ne _ _ _ _ hqp]
      exact ⟨le_refl _, le_refl _⟩

theorem inv_mono_step (self : Nat) (s : State) (op : Op) (h : Inv s) :
    Inv (step self s op) ∧
    ∀ q, depositedOf s q ≤ depositedOf (step self s op) q ∧
      claimedOf s q ≤ claimedOf (step self s op) q := by
  have hid : Inv s ∧ ∀ q, depositedOf s q ≤ depositedOf s q ∧
      claimedOf s q ≤ claimedOf s q := ⟨h, fun q => ⟨le_refl _, le_refl _⟩⟩
  cases op with
  | deposit f p a m =>
    by_cases ha : a ≤ 0
    · rw [show step self s (.deposit f p a m) = s by simp [step, deposit, ha]]
      exact hid
    · have ha' : (0 : Int) < a := lt_of_not_ge ha
      cases htok : s.token with
      | none =>
        rw [show step self s (.deposit f p a m) = s by simp [step, deposit, ha, htok]]
        exact hid
      | some tok =>
        obtain ⟨h0, hcd0⟩ := inv_getD s h p
        have hstep : step self s (.deposit f p a m) =
            { s with
              escrows := AList.set s.escrows p
                ({ (AList.get s.escrows p).getD (freshEscrow p) with
                    total_deposited :=
                      ((AList.get s.escrows p).getD (freshEscrow p)).total_deposited + a }) } := by
          simp [step, deposit, ha, htok]
        rw [hstep]
        refine inv_mono_update s h p _ ?_ ?_ ?_ ?_
        · simpa using h0
        · simp
          linarith
        · simp
          linarith
        · simp
  | claim p a att =>
    by_cases ha : a ≤ 0
    · rw [show step self s (.claim p a att) = s by simp [step, claim, ha]]
      exact hid
    · have ha' : (0 : Int) < a := lt_of_not_ge ha
      cases hg : AList.get s.escrows p with
      | none =>
        rw [show step self s (.claim p a att) = s by simp [step, claim, ha, hg]]
        exact hid
      | some w =>
        obtain ⟨h0, hcd0⟩ := h p w hg
        by_cases hav : w.total_deposited - w.total_claimed < a
        · rw [show step self s (.claim p a att) = s by simp [step, claim, ha, hg, hav]]
          exact hid
        · by_cases hatt : att.length < 64
          · rw [show step self s (.claim p a att) = s by
              simp [step, claim, ha, hg, hav, hatt]]
            exact hid
          · have hstep : step self s (.claim p a att) =
                { s with
                  escrows := AList.set s.escrows p
                    ({ w with total_claimed := w.total_claimed + a }) } := by
              simp [step, claim, ha, hg, hav, hatt]
            rw [hstep]
            refine inv_mono_update s h p _ ?_ ?_ ?_ ?_
            · simp
              linarith
            · simp
              linarith
            · simp [hg]
            · simp [hg]
              linarith
  | release p r a att =>
    by_cases ha : a ≤ 0
    · rw [show step self s (.release p r a att) = s by
        simp [step, release_to_recipient, ha]]
      exact hid
    · have ha' : (0 : Int) < a := lt_of_not_ge ha
      cases hg : AList.get s.escrows p with
      | none =>
        rw [show step self s (.release p r a att) = s by
          simp [step, release_to_recipient, ha, hg]]
        exact hid
      | some w =>
        obtain ⟨h0, hcd0⟩ := h p w hg
        by_cases hav : w.total_deposited - w.total_claimed < a
        · rw [show step self s (.release p r a att) = s by
            simp [step, release_to_recipient, ha, hg, hav]]
          exact hid
        · by_cases hatt : att.length < 64
          · rw [show step self s (.release p r a att) = s by
              simp [step, release_to_recipient, ha, hg, hav, hatt]]
            exact hid
          · cases htok : s.token with
            | none =>
              rw [show step self s (.release p r a att) = s by
                simp [step, release_to_recipient, ha, hg, hav, hatt, htok]]
              exact hid
            | some tok =>
              have hstep : step self s (.release p r a att) =
                  { s with
                    escrows := AList.set s.escrows p
                      ({ w with total_claimed := w.total_claimed + a }) } := by
                simp [step, release_to_recipient, ha, hg, hav, hatt, htok]
              rw [hstep]
              refine inv_mono_update s h p _ ?_ ?_ ?_ ?_
              · simp
                linarith
              · simp
                linarith
              · simp [hg]
              · simp [hg]
                linarith

end FundingEscrow

theorem AList.get_mem {α : Type} (l : List (Nat × α)) (k : Nat) (w : α)
    (h : AList.get l k = some w) : (k, w) ∈ l := by
  induction l with
  | nil => simp [AList.get] at h
  | cons hd t ih =>
    obtain ⟨k', v'⟩ := hd
    by_cases hk : k' = k
    · subst hk
      simp [AList.get] at h
      simp [h]
    · simp [AList.get, hk] at h
      simp [ih h]

namespace MilestoneManager

theorem projList_append (l1 l2 : List (Nat × MilestoneInfo)) (p : Nat) :
    projList (l1 ++ l2) p = projList l1 p ++ projList l2 p := by
  simp [projList, List.filter_append]

theorem projList_cons (k : Nat) (v : MilestoneInfo)
    (t : List (Nat × MilestoneInfo)) (p : Nat) :
    projList ((k, v) :: t) p =
      if v.project_id = p then v :: projList t p else projList t p := by
  by_cases h : v.project_id = p <;> simp [projList, List.filter_cons, h]

theorem projList_set_fresh (l : List (Nat × MilestoneInfo)) (k : Nat)
    (v : MilestoneInfo) (p : Nat) (h : AList.get l k = none) :
    projList (AList.set l k v) p =
      projList l p ++ (if v.project_id = p then [v] else []) := by
  rw [AList.set_of_get_none l k v h, projList_append]
  by_cases hp : v.project_id = p <;> simp [projList, hp]

theorem projList_set_update (l : List (Nat × MilestoneInfo)) (k : Nat)
    (w v : MilestoneInfo) (p : Nat) (h : AList.get l k = some w)
    (hproj : v.project_id = w.project_id) :
    ∃ m1 m2, projList l p = m1 ++ (if w.project_id = p then [w] else []) ++ m2 ∧
      projList (AList.set l k v) p =
        m1 ++ (if w.project_id = p then [v] else []) ++ m2 := by
  obtain ⟨l1, l2, he, _hn, hs⟩ := AList.get_some_decomp l k w h
  refine ⟨projList l1 p, projList l2 p, ?_, ?_⟩
  · rw [he, projList_append, projList_cons]
    by_cases hp : w.project_id = p <;> simp [hp]
  · rw [hs v, projList_append, projList_cons, hproj]
    by_cases hp : w.project_id = p <;> simp [hp]

theorem aggregates_set_fresh (l : List (Nat × MilestoneInfo)) (k : Nat)
    (v : MilestoneInfo) (p : Nat) (h : AList.get l k = none)
    (hvrel : v.released = false) :
    mCount (AList.set l k v) p = mCount l p + (if v.project_id = p then 1 else 0) ∧
    mSum (AList.set l k v) p =
      mSum l p + (if v.project_id = p then v.amount_stroops else 0) ∧
    rCount (AList.set l k v) p = rCount l p ∧
    rSum (AList.set l k v) p = rSum l p := by
  have hpl := projList_set_fresh l k v p h
  by_cases hp : v.project_id = p <;>
    simp [mCount, mSum, rCount, rSum, hpl, hp, List.filter_append, hvrel]

theorem aggregates_set_update (l : List (Nat × MilestoneInfo)) (k : Nat)
    (w v : MilestoneInfo) (p : Nat) (h : AList.get l k = some w)
    (hproj : v.project_id = w.project_id)
    (hamt : v.amount_stroops = w.amount_stroops)
    (hwrel : w.released = false) (hvrel : v.released = true) :
    mCount (AList.set l k v) p = mCount l p ∧
    mSum (AList.set l k v) p = mSum l p ∧
    rCount (AList.set l k v) p =
      rCount l p + (if w.project_id = p then 1 else 0) ∧
    rSum (AList.set l k v) p =
      rSum l p + (if w.project_id = p then w.amount_stroops else 0) := by
  obtain ⟨m1, m2, h1, h2⟩ := projList_set_update l k w v p h hproj
  by_cases hp : w.project_id = p <;>
    simp [mCount, mSum, rCount, rSum, h1, h2, hp, List.filter_append, hwrel,
      hvrel, hamt] <;> (try ring) <;> simp

theorem mminv_init_branch (s : State) (a k : Nat) (h : MMInv s) :
    MMInv (step s (Op.init a k)) := by
  by_cases hadm : (s.adminKey).isSome
  · rw [show step s (Op.init a k) = s by simp [step, init, hadm]]
    exact h
  · rw [show step s (Op.init a k) =
        { s with adminKey := some a, attestationKey := some k } by
      simp [step, init, hadm]]
    constructor
    · intro q
      simpa [summaryOf] using h.1 q
    · intro kv hkv
      exact h.2 kv (by simpa using hkv)

theorem amtpos_set_update (l : List (Nat × MilestoneInfo)) (k : Nat)
    (w v : MilestoneInfo) (h : AList.get l k = some w)
    (hamt : v.amount_stroops = w.amount_stroops)
    (hall : ∀ kv ∈ l, 0 < kv.2.amount_stroops) :
    ∀ kv ∈ AList.set l k v, 0 < kv.2.amount_stroops := by
  obtain ⟨l1, l2, he, _hn, hs⟩ := AList.get_some_decomp l k w h
  rw [hs v]
  intro kv hkv
  rcases List.mem_append.1 hkv with h1 | h2
  · exact hall kv (by rw [he]; exact List.mem_append.2 (Or.inl h1))
  · rcases List.mem_cons.1 h2 with rfl | h3
    · have hw : (0 : Int) < w.amount_stroops :=
        hall (k, w) (by rw [he]; simp)
      simpa [hamt] using hw
    · exact hall kv (by rw [he]; simp [h3])

theorem mminv_register_branch (s : State) (pr mid : Nat) (a : Int)
    (prf : Bool) (r : Nat) (h : MMInv s) :
    MMInv (step s (Op.register pr mid a prf r)) := by
  cases hadm : s.adminKey with
  | none =>
    rw [show step s (Op.register pr mid a prf r) = s by
      simp [step, register_milestone, hadm]]
    exact h
  | some ad =>
    by_cases ha : a ≤ 0
    · rw [show step s (Op.register pr mid a prf r) = s by
        simp [step, register_milestone, hadm, ha]]
      exact h
    · cases hg : AList.get s.milestones mid with
      | some w =>
        rw [show step s (Op.register pr mid a prf r) = s by
          simp [step, register_milestone, hadm, ha, hg]]
        exact h
      | none =>
        have hstep : step s (Op.register pr mid a prf r) =
            { s with
              milestones := AList.set s.milestones mid
                ⟨pr, mid, a, prf, false, 0, r⟩,
              projects := AList.set s.projects pr
                ({ (AList.get s.projects pr).getD (freshSummary pr) with
                    total_milestones :=
                      ((AList.get s.projects pr).getD
                        (freshSummary pr)).total_milestones + 1,
                    total_amount :=
                      ((AList.get s.projects pr).getD
                        (freshSummary pr)).total_amount + a }) } := by
          simp [step, register_milestone, hadm, ha, hg]
        rw [hstep]
        constructor
        · intro q
          obtain ⟨hc, hr, hsm, hrs⟩ := h.1 q
          obtain ⟨hc2, hsm2, hrc2, hrs2⟩ :=
            aggregates_set_fresh s.milestones mid ⟨pr, mid, a, prf, false, 0, r⟩ q hg rfl
          simp only [summaryOf] at hc hr hsm hrs ⊢
          simp only [hc2, hsm2, hrc2, hrs2]
          by_cases hq : q = pr
          · subst hq
            rw [AList.get_set_self]
            simp [hc, hr, hsm, hrs]
          · rw [AList.get_set_ne _ _ _ _ hq]
            simp [hc, hr, hsm, hrs, Ne.symm hq]
        · intro kv hkv
          dsimp only at hkv
          rw [AList.set_of_get_none _ _ _ hg] at hkv
          rcases List.mem_append.1 hkv with h1 | h2
          · exact h.2 kv h1
          · have h4 : kv = (mid, ⟨pr, mid, a, prf, false, 0, r⟩) := by simpa using h2
            subst h4
            simpa using lt_of_not_ge ha

theorem mminv_release_branch (s : State) (mid : Nat) (att : List Nat)
    (ts : Nat) (h : MMInv s) : MMInv (step s (Op.release mid att ts)) := by
  cases hg : AList.get s.milestones mid with
  | none =>
    rw [show step s (Op.release mid att ts) = s by
      simp [step, release_milestone, hg]]
    exact h
  | some w =>
    by_cases hrel : w.released
    · rw [show step s (Op.release mid att ts) = s by
        simp [step, release_milestone, hg, hrel]]
      exact h
    · cases hak : s.attestationKey with
      | none =>
        rw [show step s (Op.release mid att ts) = s by
          simp [step, release_milestone, hg, hrel, hak]]
        exact h
      | some ak =>
        by_cases hatt : att.length < 64
        · rw [show step s (Op.release mid att ts) = s by
            simp [step, release_milestone, hg, hrel, hak, hatt]]
          exact h
        · have hstep : step s (Op.release mid att ts) =
              { s with
                milestones := AList.set s.milestones mid
                  ({ w with released := true, released_at := ts }),
                projects := AList.set s.projects w.project_id
                  ({ (AList.get s.projects w.project_id).getD
                      (freshSummary w.project_id) with
                      released_milestones :=
                        ((AList.get s.projects w.project_id).getD
                          (freshSummary w.project_id)).released_milestones + 1,
                      released_amount :=
                        ((AList.get s.projects w.project_id).getD
                          (freshSummary w.project_id)).released_amount +
                          w.amount_stroops }) } := by
            simp [step, release_milestone, hg, hrel, hak, hatt]
          rw [hstep]
          have hwrel : w.released = false := by
            simpa using hrel
          constructor
          · intro q
            obtain ⟨hc, hr, hsm, hrs⟩ := h.1 q
            obtain ⟨hc2, hsm2, hrc2, hrs2⟩ :=
              aggregates_set_update s.milestones mid w
                ({ w with released := true, released_at := ts }) q hg rfl rfl
                hwrel rfl
            simp only [summaryOf] at hc hr hsm hrs ⊢
            simp only [hc2, hsm2, hrc2, hrs2]
            by_cases hq : q = w.project_id
            · subst hq
              rw [AList.get_set_self]
              simp [hc, hr, hsm, hrs]
            · rw [AList.get_set_ne _ _ _ _ hq]
              simp [hc, hr, hsm, hrs, Ne.symm hq]
          · intro kv hkv
            dsimp only at hkv
            exact amtpos_set_update s.milestones mid w
              ({ w with released := true, released_at := ts }) hg rfl h.2 kv hkv

theorem mminv_step (s : State) (op : Op) (h : MMInv s) : MMInv (step s op) := by
  cases op with
  | init a k => exact mminv_init_branch s a k h
  | register pr mid a prf r => exact mminv_register_branch s pr mid a prf r h
  | release mid att ts => exact mminv_release_branch s mid att ts h

theorem mminv_run (s : State) (ops : List Op) (h : MMInv s) :
    MMInv (run s ops) := by
  induction ops generalizing s with
  | nil => exact h
  | cons op t ih => exact ih (step s op) (mminv_step s op h)

theorem mminv_empty : MMInv State.empty := by
  constructor
  · intro q
    simp [summaryOf, State.empty, AList.get, freshSummary, mCount, mSum,
      rCount, rSum, projList]
  · intro kv hkv
    simp [State.empty] at hkv

theorem reliff_relmono_step (s : State) (op : Op) (h : RelIff s)
    (hts : ∀ m att ts, op = Op.release m att ts → 0 < ts) :
    RelIff (step s op) ∧ ∀ m, releasedIn s m → releasedIn (step s op) m := by
  cases op with
  | init a k =>
    by_cases hadm : (s.adminKey).isSome
    · rw [show step s (Op.init a k) = s by simp [step, init, hadm]]
      exact ⟨h, fun m hm => hm⟩
    · rw [show step s (Op.init a k) =
          { s with adminKey := some a, attestationKey := some k } by
        simp [step, init, hadm]]
      constructor
      · intro k' info hk
        exact h k' info (by simpa using hk)
      · rintro m ⟨info, hi, hrel⟩
        exact ⟨info, by simpa using hi, hrel⟩
  | register pr mid a prf r =>
    cases hadm : s.adminKey with
    | none =>
      rw [show step s (Op.register pr mid a prf r) = s by
        simp [step, register_milestone, hadm]]
      exact ⟨h, fun m hm => hm⟩
    | some ad =>
      by_cases ha : a ≤ 0
      · rw [show step s (Op.register pr mid a prf r) = s by
          simp [step, register_milestone, hadm, ha]]
        exact ⟨h, fun m hm => hm⟩
      · cases hg : AList.get s.milestones mid with
        | some w =>
          rw [show step s (Op.register pr mid a prf r) = s by
            simp [step, register_milestone, hadm, ha, hg]]
          exact ⟨h, fun m hm => hm⟩
        | none =>
          have hstep : step s (Op.register pr mid a prf r) =
              { s with
                milestones := AList.set s.milestones mid
                  ⟨pr, mid, a, prf, false, 0, r⟩,
                projects := AList.set s.projects pr
                  ({ (AList.get s.projects pr).getD (freshSummary pr) with
                      total_milestones :=
                        ((AList.get s.projects pr).getD
                          (freshSummary pr)).total_milestones + 1,
                      total_amount :=
                        ((AList.get s.projects pr).getD
                          (freshSummary pr)).total_amount + a }) } := by
            simp [step, register_milestone, hadm, ha, hg]
          rw [hstep]
          constructor
          · intro k' info hk
            dsimp only at hk
            by_cases hk' : k' = mid
            · subst hk'
              rw [AList.get_set_self] at hk
              cases hk
              simp
            · rw [AList.get_set_ne _ _ _ _ hk'] at hk
              exact h k' info hk
          · rintro m ⟨info, hi, hrel⟩
            by_cases hm : m = mid
            · subst hm
              rw [hg] at hi
              cases hi
            · exact ⟨info, by dsimp only; rw [AList.get_set_ne _ _ _ _ hm]; exact hi,
                hrel⟩
  | release mid att ts =>
    have hts' : 0 < ts := hts mid att ts rfl
    cases hg : AList.get s.milestones mid with
    | none =>
      rw [show step s (Op.release mid att ts) = s by
        simp [step, release_milestone, hg]]
      exact ⟨h, fun m hm => hm⟩
    | some w =>
      by_cases hrel : w.released
      · rw [show step s (Op.release mid att ts) = s by
          simp [step, release_milestone, hg, hrel]]
        exact ⟨h, fun m hm => hm⟩
      · cases hak : s.attestationKey with
        | none =>
          rw [show step s (Op.release mid att ts) = s by
            simp [step, release_milestone, hg, hrel, hak]]
          exact ⟨h, fun m hm => hm⟩
        | some ak =>
          by_cases hatt : att.length < 64
          · rw [show step s (Op.release mid att ts) = s by
              simp [step, release_milestone, hg, hrel, hak, hatt]]
            exact ⟨h, fun m hm => hm⟩
          · have hstep : step s (Op.release mid att ts) =
                { s with
                  milestones := AList.set s.milestones mid
                    ({ w with released := true, released_at := ts }),
                  projects := AList.set s.projects w.project_id
                    ({ (AList.get s.projects w.project_id).getD
                        (freshSummary w.project_id) with
                        released_milestones :=
                          ((AList.get s.projects w.project_id).getD
                            (freshSummary w.project_id)).released_milestones + 1,
                        released_amount :=
                          ((AList.get s.projects w.project_id).getD
                            (freshSummary w.project_id)).released_amount +
                            w.amount_stroops }) } := by
              simp [step, release_milestone, hg, hrel, hak, hatt]
            rw [hstep]
            constructor
            · intro k' info hk
              dsimp only at hk
              by_cases hk' : k' = mid
              · subst hk'
                rw [AList.get_set_self] at hk
                cases hk
                simp [hts']
              · rw [AList.get_set_ne _ _ _ _ hk'] at hk
                exact h k' info hk
            · rintro m ⟨info, hi, hrel'⟩
              by_cases hm : m = mid
              · subst hm
                exact ⟨{ w with released := true, released_at := ts },
                  by dsimp only; rw [AList.get_set_self], rfl⟩
              · exact ⟨info, by dsimp only; rw [AList.get_set_ne _ _ _ _ hm]; exact hi,
                  hrel'⟩

theorem reliff_relmono_run (s : State) (ops : List Op) (h : RelIff s)
    (hts : PosTimes ops) :
    RelIff (run s ops) ∧ ∀ m, releasedIn s m → releasedIn (run s ops) m := by
  induction ops generalizing s with
  | nil => exact ⟨h, fun m hm => hm⟩
  | cons op t ih =>
    have hop : ∀ m att ts, op = Op.release m att ts → 0 < ts := by
      intro m att ts he
      exact hts op (by simp) m att ts he
    have ht : PosTimes t := by
      intro op' hop' m att ts he
      exact hts op' (by simp [hop']) m att ts he
    obtain ⟨h1, h2⟩ := reliff_relmono_step s op h hop
    obtain ⟨h3, h4⟩ := ih (step s op) h1 ht
    exact ⟨h3, fun m hm => h4 m (h2 m hm)⟩

theorem reliff_empty : RelIff State.empty := by
  intro k info hk
  simp [State.empty, AList.get] at hk

end MilestoneManager

theorem AList.keys_set_of_get_some {α : Type} (l : List (Nat × α)) (k : Nat)
    (w v : α) (h : AList.get l k = some w) :
    (AList.set l k v).map Prod.fst = l.map Prod.fst := by
  obtain ⟨l1, l2, he, _hn, hs⟩ := AList.get_some_decomp l k w h
  rw [hs v, he]
  simp

theorem FundingEscrow.inv_empty : FundingEscrow.Inv FundingEscrow.State.empty := by
  intro p info hp
  simp [FundingEscrow.State.empty, AList.get] at hp

namespace ProjectRegistry

theorem cinv_step (s : State) (op : Op) (h : CInv s) : CInv (step s op) := by
  cases op with
  | register o pid m ts =>
    cases hg : AList.get s.projects pid with
    | some w =>
      rw [show step s (Op.register o pid m ts) = s by
        simp [step, register, hg]]
      exact h
    | none =>
      have hstep : step s (Op.register o pid m ts) =
          { s with
            projects := AList.set s.projects pid ⟨o, pid, m, ts⟩,
            projectCount := some ((s.projectCount).getD 0 + 1) } := by
        simp [step, register, hg]
      rw [hstep]
      constructor
      · dsimp only [get_project_count]
        rw [AList.set_of_get_none _ _ _ hg]
        have h1 : (s.projectCount).getD 0 = s.projects.length := h.1
        simp [h1]
      · dsimp only
        rw [AList.set_of_get_none _ _ _ hg]
        simp only [List.map_append]
        refine List.Nodup.append h.2 (by simp) ?_
        intro x hx hy
        simp at hy
        rw [hy] at hx
        exact (AList.get_none_iff s.projects pid).1 hg hx
  | update pid m =>
    cases hg : AList.get s.projects pid with
    | none =>
      rw [show step s (Op.update pid m) = s by
        simp [step, update_metadata, hg]]
      exact h
    | some w =>
      have hstep : step s (Op.update pid m) =
          { s with
            projects := AList.set s.projects pid
              ({ w with metadata_uri := m }) } := by
        simp [step, update_metadata, hg]
      rw [hstep]
      have hkeys := AList.keys_set_of_get_some s.projects pid w
        ({ w with metadata_uri := m }) hg
      constructor
      · dsimp only [get_project_count]
        have hlen : (AList.set s.projects pid
            ({ w with metadata_uri := m })).length = s.projects.length := by
          rw [← List.length_map _ Prod.fst, hkeys, List.length_map]
        rw [hlen]
        exact h.1
      · dsimp only
        rw [hkeys]
        exact h.2

theorem cinv_run (s : State) (ops : List Op) (h : CInv s) : CInv (run s ops) := by
  induction ops generalizing s with
  | nil => exact h
  | cons op t ih => exact ih (step s op) (cinv_step s op h)

theorem cinv_empty : CInv State.empty := by
  constructor <;> simp [State.empty, get_project_count]

end ProjectRegistry

theorem MilestoneManager.amt_nonneg_projList (s : MilestoneManager.State)
    (h : MilestoneManager.AmtPos s) (p : Nat) :
    ∀ x ∈ (MilestoneManager.projList s.milestones p).map
      (·.amount_stroops), 0 ≤ x := by
  intro x hx
  simp only [MilestoneManager.projList, List.mem_map, List.mem_filter] at hx
  obtain ⟨info, ⟨kv, ⟨hmem, _hproj⟩, hinfo⟩, hamt⟩ := hx
  subst hinfo
  subst hamt
  exact le_of_lt (h kv hmem)

theorem FundingEscrow.claim_transfers_nil (s : FundingEscrow.State) (p : Nat)
    (a : Int) (att : List Nat) : (FundingEscrow.claim s p a att).2.2 = [] := by
  by_cases ha : a ≤ 0
  · simp [FundingEscrow.claim, ha]
  · cases hg : AList.get s.escrows p with
    | none => simp [FundingEscrow.claim, ha, hg]
    | some w =>
      by_cases hav : w.total_deposited - w.total_claimed < a
      · simp [FundingEscrow.claim, ha, hg, hav]
      · by_cases hatt : att.length < 64
        · simp [FundingEscrow.claim, ha, hg, hav, hatt]
        · simp [FundingEscrow.claim, ha, hg, hav, hatt]

/-- Claim C1: for every sequence of `deposit`, `claim` and
`release_to_recipient` invocations on the funding escrow (starting from the
freshly deployed storage, whose accounts all satisfy the invariant), every
stored escrow account satisfies `total_claimed ≤ total_deposited` after
every call, and each project's `total_deposited` and `total_claimed` are
monotonically non-decreasing across the sequence. -/
theorem C1_escrow_conservation_and_monotonicity :
    FundingEscrow.Inv FundingEscrow.State.empty ∧
    ∀ self s ops, FundingEscrow.Inv s →
      FundingEscrow.Inv (FundingEscrow.run self s ops) ∧
      ∀ p, FundingEscrow.depositedOf s p ≤
          FundingEscrow.depositedOf (FundingEscrow.run self s ops) p ∧
        FundingEscrow.claimedOf s p ≤
          FundingEscrow.claimedOf (FundingEscrow.run self s ops) p := by
  refine ⟨FundingEscrow.inv_empty, ?_⟩
  intro self s ops h
  induction ops generalizing s with
  | nil => exact ⟨h, fun p => ⟨le_refl _, le_refl _⟩⟩
  | cons op t ih =>
    obtain ⟨h1, h2⟩ := FundingEscrow.inv_mono_step self s op h
    obtain ⟨h3, h4⟩ := ih (FundingEscrow.step self s op) h1
    exact ⟨h3, fun p =>
      ⟨le_trans (h2 p).1 (h4 p).1, le_trans (h2 p).2 (h4 p).2⟩⟩

theorem C1_witness :
    FundingEscrow.Inv (FundingEscrow.run 7 FundingEscrow.State.empty
        [FundingEscrow.Op.deposit 1 2 500 "donation",
         FundingEscrow.Op.claim 2 200 (List.replicate 64 0)]) ∧
    ∀ p, FundingEscrow.depositedOf FundingEscrow.State.empty p ≤
        FundingEscrow.depositedOf (FundingEscrow.run 7 FundingEscrow.State.empty
          [FundingEscrow.Op.deposit 1 2 500 "donation",
           FundingEscrow.Op.claim 2 200 (List.replicate 64 0)]) p ∧
      FundingEscrow.claimedOf FundingEscrow.State.empty p ≤
        FundingEscrow.claimedOf (FundingEscrow.run 7 FundingEscrow.State.empty
          [FundingEscrow.Op.deposit 1 2 500 "donation",
           FundingEscrow.Op.claim 2 200 (List.replicate 64 0)]) p :=
  C1_escrow_conservation_and_monotonicity.2 7 FundingEscrow.State.empty
    [FundingEscrow.Op.deposit 1 2 500 "donation",
     FundingEscrow.Op.claim 2 200 (List.replicate 64 0)]
    C1_escrow_conservation_and_monotonicity.1

/-- Claim C2: every state-changing entry point that returns an error leaves
the contract's storage unchanged by that invocation, and in particular any
`deposit`/`claim`/`release_to_recipient`/`register_milestone` call with
`amount ≤ 0` is rejected before any storage mutation. -/
theorem C2_errors_leave_storage_unchanged :
    (∀ self s f p a m e, (FundingEscrow.deposit self s f p a m).1 = .error e →
      (FundingEscrow.deposit self s f p a m).2.1 = s) ∧
    (∀ s p a att e, (FundingEscrow.claim s p a att).1 = .error e →
      (FundingEscrow.claim s p a att).2.1 = s) ∧
    (∀ self s p r a att e,
      (FundingEscrow.release_to_recipient self s p r a att).1 = .error e →
      (FundingEscrow.release_to_recipient self s p r a att).2.1 = s) ∧
    (∀ s o pid m ts e, (ProjectRegistry.register s o pid m ts).1 = .error e →
      (ProjectRegistry.register s o pid m ts).2 = s) ∧
    (∀ s pr mid a prf r e,
      (MilestoneManager.register_milestone s pr mid a prf r).1 = .error e →
      (MilestoneManager.register_milestone s pr mid a prf r).2 = s) ∧
    (∀ s mid att ts e, (MilestoneManager.release_milestone s mid att ts).1 = .error e →
      (MilestoneManager.release_milestone s mid att ts).2 = s) ∧
    (∀ self s f p a m, a ≤ 0 →
      (FundingEscrow.deposit self s f p a m).1 = .error "Amount must be positive" ∧
      (FundingEscrow.deposit self s f p a m).2.1 = s) ∧
    (∀ s p a att, a ≤ 0 →
      (FundingEscrow.claim s p a att).1 = .error "Amount must be positive" ∧
      (FundingEscrow.claim s p a att).2.1 = s) ∧
    (∀ self s p r a att, a ≤ 0 →
      (FundingEscrow.release_to_recipient self s p r a att).1 =
        .error "Amount must be positive" ∧
      (FundingEscrow.release_to_recipient self s p r a att).2.1 = s) ∧
    (∀ s pr mid a prf r, a ≤ 0 →
      (∃ e, (MilestoneManager.register_milestone s pr mid a prf r).1 = .error e) ∧
      (MilestoneManager.register_milestone s pr mid a prf r).2 = s) := by
  refine ⟨?_, ?_, ?_, ?_, ?_, ?_, ?_, ?_, ?_, ?_⟩
  · intro self s f p a m e he
    by_cases ha : a ≤ 0
    · simp [FundingEscrow.deposit, ha]
    · cases htok : s.token with
      | none => simp [FundingEscrow.deposit, ha, htok]
      | some tok => simp [FundingEscrow.deposit, ha, htok] at he
  · intro s p a att e he
    by_cases ha : a ≤ 0
    · simp [FundingEscrow.claim, ha]
    · cases hg : AList.get s.escrows p with
      | none => simp [FundingEscrow.claim, ha, hg]
      | some w =>
        by_cases hav : w.total_deposited - w.total_claimed < a
        · simp [FundingEscrow.claim, ha, hg, hav]
        · by_cases hatt : att.length < 64
          · simp [FundingEscrow.claim, ha, hg, hav, hatt]
          · simp [FundingEscrow.claim, ha, hg, hav, hatt] at he
  · intro self s p r a att e he
    by_cases ha : a ≤ 0
    · simp [FundingEscrow.release_to_recipient, ha]
    · cases hg : AList.get s.escrows p with
      | none => simp [FundingEscrow.release_to_recipient, ha, hg]
      | some w =>
        by_cases hav : w.total_deposited - w.total_claimed < a
        · simp [FundingEscrow.release_to_recipient, ha, hg, hav]
        · by_cases hatt : att.length < 64
          · simp [FundingEscrow.release_to_recipient, ha, hg, hav, hatt]
          · cases htok : s.token with
            | none => simp [FundingEscrow.release_to_recipient, ha, hg, hav, hatt, htok]
            | some tok =>
              simp [FundingEscrow.release_to_recipient, ha, hg, hav, hatt, htok] at he
  · intro s o pid m ts e he
    cases hg : AList.get s.projects pid with
    | some w => simp [ProjectRegistry.register, hg]
    | none => simp [ProjectRegistry.register, hg] at he
  · intro s pr mid a prf r e he
    cases hadm : s.adminKey with
    | none => simp [MilestoneManager.register_milestone, hadm]
    | some ad =>
      by_cases ha : a ≤ 0
      · simp [MilestoneManager.register_milestone, hadm, ha]
      · cases hg : AList.get s.milestones mid with
        | some w => simp [MilestoneManager.register_milestone, hadm, ha, hg]
        | none => simp [MilestoneManager.register_milestone, hadm, ha, hg] at he
  · intro s mid att ts e he
    cases hg : AList.get s.milestones mid with
    | none => simp [MilestoneManager.release_milestone, hg]
    | some w =>
      by_cases hrel : w.released
      · simp [MilestoneManager.release_milestone, hg, hrel]
      · cases hak : s.attestationKey with
        | none => simp [MilestoneManager.release_milestone, hg, hrel, hak]
        | some ak =>
          by_cases hatt : att.length < 64
          · simp [MilestoneManager.release_milestone, hg, hrel, hak, hatt]
          · simp [MilestoneManager.release_milestone, hg, hrel, hak, hatt] at he
  · intro self s f p a m ha
    exact ⟨by simp [FundingEscrow.deposit, ha], by simp [FundingEscrow.deposit, ha]⟩
  · intro s p a att ha
    exact ⟨by simp [FundingEscrow.claim, ha], by simp [FundingEscrow.claim, ha]⟩
  · intro self s p r a att ha
    exact ⟨by simp [FundingEscrow.release_to_recipient, ha],
      by simp [FundingEscrow.release_to_recipient, ha]⟩
  · intro s pr mid a prf r ha
    cases hadm : s.adminKey with
    | none =>
      exact ⟨⟨"Not initialized", by simp [MilestoneManager.register_milestone, hadm]⟩,
        by simp [MilestoneManager.register_milestone, hadm]⟩
    | some ad =>
      exact ⟨⟨"Amount must be positive",
        by simp [MilestoneManager.register_milestone, hadm, ha]⟩,
        by simp [MilestoneManager.register_milestone, hadm, ha]⟩

theorem C2_witness :
    (FundingEscrow.claim FundingEscrow.State.empty 1 5 []).2.1 =
      FundingEscrow.State.empty :=
  C2_errors_leave_storage_unchanged.2.1 FundingEscrow.State.empty 1 5 []
    "Project not found" (by rfl)

/-- Claim C3: `FundingEscrow::initialize` is one-time (a second call fails
with "Already initialized") and persistently stores the token address, BUT
contrary to the claim it does not establish any attestation key: the
`attestation_pubkey` argument is dropped (the result of `initialize` does
not depend on it, and the resulting storage holds only the token). -/
theorem C3_initialize_ignores_attestation_key :
    (∀ s t k1 k2, FundingEscrow.init s t k1 = FundingEscrow.init s t k2) ∧
    (FundingEscrow.init FundingEscrow.State.empty 7 5).2 =
      { token := some 7, escrows := [] } ∧
    FundingEscrow.init ((FundingEscrow.init FundingEscrow.State.empty 7 5).2) 8 9 =
      (.error "Already initialized", (FundingEscrow.init FundingEscrow.State.empty 7 5).2) :=
  ⟨fun s t k1 k2 => rfl, by rfl, by rfl⟩

/-- Claim C4: attestation verification in `claim`, `release_to_recipient`
and `release_milestone` rejects every attestation shorter than 64 bytes
with the invalid-attestation error, and accepts every byte string of
length ≥ 64 whenever the other preconditions hold, regardless of its
content or of any stored attestation key (the result depends on the
attestation only through its length). -/
theorem C4_attestation_length_is_the_only_check :
    (∀ s p a att1 att2, att1.length = att2.length →
      FundingEscrow.claim s p a att1 = FundingEscrow.claim s p a att2) ∧
    (∀ s p a att info, 0 < a →
      AList.get s.escrows p = some info →
      a ≤ info.total_deposited - info.total_claimed →
      (att.length < 64 →
        (FundingEscrow.claim s p a att).1 = .error "Invalid attestation") ∧
      (64 ≤ att.length → (FundingEscrow.claim s p a att).1 = .ok ())) ∧
    (∀ self s p r a att info tok, 0 < a →
      AList.get s.escrows p = some info →
      a ≤ info.total_deposited - info.total_claimed →
      s.token = some tok →
      (att.length < 64 →
        (FundingEscrow.release_to_recipient self s p r a att).1 =
          .error "Invalid attestation") ∧
      (64 ≤ att.length →
        (FundingEscrow.release_to_recipient self s p r a att).1 = .ok ())) ∧
    (∀ s mid att ts info ak,
      AList.get s.milestones mid = some info →
      info.released = false →
      s.attestationKey = some ak →
      (att.length < 64 →
        (MilestoneManager.release_milestone s mid att ts).1 =
          .error "Invalid attestation signature") ∧
      (64 ≤ att.length →
        (MilestoneManager.release_milestone s mid att ts).1 = .ok ())) := by
  refine ⟨?_, ?_, ?_, ?_⟩
  · intro s p a att1 att2 hlen
    unfold FundingEscrow.claim
    rw [hlen]
  · intro s p a att info ha hg hav
    have ha' : ¬ a ≤ 0 := not_le.2 ha
    have hav' : ¬ info.total_deposited - info.total_claimed < a := not_lt.2 hav
    constructor
    · intro hshort
      simp [FundingEscrow.claim, ha', hg, hav', hshort]
    · intro hlong
      have hlong' : ¬ att.length < 64 := not_lt.2 hlong
      simp [FundingEscrow.claim, ha', hg, hav', hlong']
  · intro self s p r a att info tok ha hg hav htok
    have ha' : ¬ a ≤ 0 := not_le.2 ha
    have hav' : ¬ info.total_deposited - info.total_claimed < a := not_lt.2 hav
    constructor
    · intro hshort
      simp [FundingEscrow.release_to_recipient, ha', hg, hav', hshort]
    · intro hlong
      have hlong' : ¬ att.length < 64 := not_lt.2 hlong
      simp [FundingEscrow.release_to_recipient, ha', hg, hav', hlong', htok]
  · intro s mid att ts info ak hg hrel hak
    constructor
    · intro hshort
      simp [MilestoneManager.release_milestone, hg, hrel, hak, hshort]
    · intro hlong
      have hlong' : ¬ att.length < 64 := not_lt.2 hlong
      simp [MilestoneManager.release_milestone, hg, hrel, hak, hlong']

theorem C4_witness :
    ((List.replicate 63 0 : List Nat).length < 64 →
      (MilestoneManager.release_milestone
        { adminKey := some 1, attestationKey := some 5,
          milestones := [(2, ⟨1, 2, 300, true, false, 0, 9⟩)], projects := [] }
        2 (List.replicate 63 0) 10).1 = .error "Invalid attestation signature") ∧
    (64 ≤ (List.replicate 63 0 : List Nat).length →
      (MilestoneManager.release_milestone
        { adminKey := some 1, attestationKey := some 5,
          milestones := [(2, ⟨1, 2, 300, true, false, 0, 9⟩)], projects := [] }
        2 (List.replicate 63 0) 10).1 = .ok ()) :=
  C4_attestation_length_is_the_only_check.2.2.2
    { adminKey := some 1, attestationKey := some 5,
      milestones := [(2, ⟨1, 2, 300, true, false, 0, 9⟩)], projects := [] }
    2 (List.replicate 63 0) 10 ⟨1, 2, 300, true, false, 0, 9⟩ 5
    (by rfl) (by rfl) (by rfl)

/-- Claim C5: a successful `claim` increments the project's
`total_claimed` and changes nothing else, performing no token transfer; a
successful `release_to_recipient` performs exactly one token transfer,
from the contract's address to the recipient, before incrementing
`total_claimed`; and among the state-changing entry points only
`release_to_recipient` ever emits a transfer whose source is the contract's
own address. -/
theorem C5_claim_moves_no_tokens_release_does :
    (∀ s p a att info, AList.get s.escrows p = some info →
      (FundingEscrow.claim s p a att).1 = .ok () →
      (FundingEscrow.claim s p a att).2.1.token = s.token ∧
      (FundingEscrow.claim s p a att).2.1.escrows =
        AList.set s.escrows p
          ({ info with total_claimed := info.total_claimed + a }) ∧
      (FundingEscrow.claim s p a att).2.2 = []) ∧
    (∀ s p a att, (FundingEscrow.claim s p a att).2.2 = []) ∧
    (∀ self s p r a att info tok, AList.get s.escrows p = some info →
      s.token = some tok →
      (FundingEscrow.release_to_recipient self s p r a att).1 = .ok () →
      (FundingEscrow.release_to_recipient self s p r a att).2.2 =
        [⟨tok, self, r, a⟩] ∧
      (FundingEscrow.release_to_recipient self s p r a att).2.1.token = s.token ∧
      (FundingEscrow.release_to_recipient self s p r a att).2.1.escrows =
        AList.set s.escrows p
          ({ info with total_claimed := info.total_claimed + a })) ∧
    (∀ self s op t, t ∈ FundingEscrow.transfersOf self s op →
      t.source = self →
      t.dest = self ∨ ∃ p r a att, op = FundingEscrow.Op.release p r a att) := by
  refine ⟨?_, FundingEscrow.claim_transfers_nil, ?_, ?_⟩
  · intro s p a att info hg hok
    by_cases ha : a ≤ 0
    · simp [FundingEscrow.claim, ha] at hok
    · by_cases hav : info.total_deposited - info.total_claimed < a
      · simp [FundingEscrow.claim, ha, hg, hav] at hok
      · by_cases hatt : att.length < 64
        · simp [FundingEscrow.claim, ha, hg, hav, hatt] at hok
        · refine ⟨?_, ?_, ?_⟩
          · simp [FundingEscrow.claim, ha, hg, hav, hatt]
          · simp [FundingEscrow.claim, ha, hg, hav, hatt]
          · simp [FundingEscrow.claim, ha, hg, hav, hatt]
  · intro self s p r a att info tok hg htok hok
    by_cases ha : a ≤ 0
    · simp [FundingEscrow.release_to_recipient, ha] at hok
    · by_cases hav : info.total_deposited - info.total_claimed < a
      · simp [FundingEscrow.release_to_recipient, ha, hg, hav] at hok
      · by_cases hatt : att.length < 64
        · simp [FundingEscrow.release_to_recipient, ha, hg, hav, hatt] at hok
        · refine ⟨?_, ?_, ?_⟩
          · simp [FundingEscrow.release_to_recipient, ha, hg, hav, hatt, htok]
          · simp [FundingEscrow.release_to_recipient, ha, hg, hav, hatt, htok]
          · simp [FundingEscrow.release_to_recipient, ha, hg, hav, hatt, htok]
  · intro self s op t hmem hsrc
    cases op with
    | deposit f p a m =>
      left
      by_cases ha : a ≤ 0
      · simp [FundingEscrow.transfersOf, FundingEscrow.deposit, ha] at hmem
      · cases htok : s.token with
        | none =>
          simp [FundingEscrow.transfersOf, FundingEscrow.deposit, ha, htok] at hmem
        | some tok =>
          have ht : t = ⟨tok, f, self, a⟩ := by
            simpa [FundingEscrow.transfersOf, FundingEscrow.deposit, ha, htok]
              using hmem
          rw [ht]
    | claim p a att =>
      rw [show FundingEscrow.transfersOf self s (FundingEscrow.Op.claim p a att) =
        (FundingEscrow.claim s p a att).2.2 from rfl,
        FundingEscrow.claim_transfers_nil] at hmem
      simp at hmem
    | release p r a att =>
      exact Or.inr ⟨p, r, a, att, rfl⟩

theorem C5_witness :
    (FundingEscrow.claim
        { token := some 3, escrows := [(1, ⟨1, 500, 0, 0⟩)] }
        1 200 (List.replicate 64 0)).2.1.token =
      ({ token := some 3,
         escrows := [(1, ⟨1, 500, 0, 0⟩)] } : FundingEscrow.State).token ∧
    (FundingEscrow.claim
        { token := some 3, escrows := [(1, ⟨1, 500, 0, 0⟩)] }
        1 200 (List.replicate 64 0)).2.1.escrows =
      AList.set [(1, ⟨1, 500, 0, 0⟩)] 1
        ({ (⟨1, 500, 0, 0⟩ : FundingEscrow.EscrowInfo) with
            total_claimed := (0 : Int) + 200 }) ∧
    (FundingEscrow.claim
        { token := some 3, escrows := [(1, ⟨1, 500, 0, 0⟩)] }
        1 200 (List.replicate 64 0)).2.2 = [] :=
  C5_claim_moves_no_tokens_release_does.1
    { token := some 3, escrows := [(1, ⟨1, 500, 0, 0⟩)] }
    1 200 (List.replicate 64 0) ⟨1, 500, 0, 0⟩ (by rfl) (by rfl)

/-- Claim C6: for every registered milestone, `can_release_milestone`
returns true iff the milestone is not yet released and
(`proof_required = false` or `released_at > 0`). -/
theorem C6_can_release_milestone_iff :
    ∀ s mid info, AList.get s.milestones mid = some info →
      (MilestoneManager.can_release_milestone s mid = true ↔
        (info.released = false ∧
          (info.proof_required = false ∨ 0 < info.released_at))) := by
  intro s mid info hg
  simp [MilestoneManager.can_release_milestone, hg]

theorem C6_witness :
    MilestoneManager.can_release_milestone
      { adminKey := some 1, attestationKey := some 5,
        milestones := [(2, ⟨1, 2, 300, false, false, 0, 9⟩)], projects := [] }
      2 = true :=
  (C6_can_release_milestone_iff
    { adminKey := some 1, attestationKey := some 5,
      milestones := [(2, ⟨1, 2, 300, false, false, 0, 9⟩)], projects := [] }
    2 ⟨1, 2, 300, false, false, 0, 9⟩ (by rfl)).2 ⟨rfl, Or.inl rfl⟩

/-- Claim C7: milestone release is one-way (under sequences of
invocations whose release calls carry positive ledger timestamps, a
released milestone never becomes unreleased, and every stored milestone
satisfies `released_at > 0` iff `released = true`), and a second
`release_milestone` call on an already-released milestone fails with
"Milestone already released" leaving the whole storage — in particular
`released_at` — unchanged. -/
theorem C7_release_is_one_way :
    MilestoneManager.RelIff MilestoneManager.State.empty ∧
    (∀ s ops, MilestoneManager.RelIff s → MilestoneManager.PosTimes ops →
      MilestoneManager.RelIff (MilestoneManager.run s ops) ∧
      ∀ m, MilestoneManager.releasedIn s m →
        MilestoneManager.releasedIn (MilestoneManager.run s ops) m) ∧
    (∀ s mid att ts info, AList.get s.milestones mid = some info →
      info.released = true →
      MilestoneManager.release_milestone s mid att ts =
        (.error "Milestone already released", s)) := by
  refine ⟨MilestoneManager.reliff_empty,
    fun s ops h hts => MilestoneManager.reliff_relmono_run s ops h hts, ?_⟩
  intro s mid att ts info hg hrel
  simp [MilestoneManager.release_milestone, hg, hrel]

theorem C7_witness :
    MilestoneManager.release_milestone
        { adminKey := some 1, attestationKey := some 5,
          milestones := [(2, ⟨1, 2, 300, true, true, 10, 9⟩)], projects := [] }
        2 (List.replicate 64 0) 11 =
      (.error "Milestone already released",
        { adminKey := some 1, attestationKey := some 5,
          milestones := [(2, ⟨1, 2, 300, true, true, 10, 9⟩)], projects := [] }) :=
  C7_release_is_one_way.2.2
    { adminKey := some 1, attestationKey := some 5,
      milestones := [(2, ⟨1, 2, 300, true, true, 10, 9⟩)], projects := [] }
    2 (List.replicate 64 0) 11 ⟨1, 2, 300, true, true, 10, 9⟩ (by rfl) rfl

/-- Claim C8: in every reachable MilestoneManager state the per-project
summary satisfies `released_milestones ≤ total_milestones` and
`released_amount ≤ total_amount`, and its counters and sums equal the
count/sum over that project's stored milestone records; concretely,
registering milestones of 300 and 700 and releasing both yields the
summary (2 milestones, 1000 total, 2 released, 1000 released). -/
theorem C8_summary_matches_milestone_records :
    MilestoneManager.MMInv MilestoneManager.State.empty ∧
    (∀ s ops, MilestoneManager.MMInv s →
      MilestoneManager.MMInv (MilestoneManager.run s ops)) ∧
    (∀ s, MilestoneManager.MMInv s → ∀ p sm,
      AList.get s.projects p = some sm →
      sm.released_milestones ≤ sm.total_milestones ∧
      sm.released_amount ≤ sm.total_amount ∧
      sm.total_milestones = MilestoneManager.mCount s.milestones p ∧
      sm.released_milestones = MilestoneManager.rCount s.milestones p ∧
      sm.total_amount = MilestoneManager.mSum s.milestones p ∧
      sm.released_amount = MilestoneManager.rSum s.milestones p) ∧
    MilestoneManager.get_project_milestones
        (MilestoneManager.run MilestoneManager.State.empty
          [MilestoneManager.Op.init 1 5,
           MilestoneManager.Op.register 1 2 300 true 9,
           MilestoneManager.Op.register 1 3 700 true 9,
           MilestoneManager.Op.release 2 (List.replicate 64 0) 10,
           MilestoneManager.Op.release 3 (List.replicate 64 0) 11]) 1 =
      some ⟨1, 2, 2, 1000, 1000⟩ := by
  refine ⟨MilestoneManager.mminv_empty,
    fun s ops h => MilestoneManager.mminv_run s ops h, ?_, by decide⟩
  intro s h p sm hg
  obtain ⟨hc, hr, hsm, hrs⟩ := h.1 p
  rw [show MilestoneManager.summaryOf s p = sm by
    simp [MilestoneManager.summaryOf, hg]] at hc hr hsm hrs
  have hcount : MilestoneManager.rCount s.milestones p ≤
      MilestoneManager.mCount s.milestones p :=
    List.length_filter_le _ _
  have hsub : List.Sublist
      (((MilestoneManager.projList s.milestones p).filter
        (·.released)).map (·.amount_stroops))
      ((MilestoneManager.projList s.milestones p).map (·.amount_stroops)) :=
    List.Sublist.map _ (List.filter_sublist _)
  have hsums : MilestoneManager.rSum s.milestones p ≤
      MilestoneManager.mSum s.milestones p :=
    List.Sublist.sum_le_sum hsub
      (MilestoneManager.amt_nonneg_projList s h.2 p)
  exact ⟨hr ▸ hc ▸ hcount, hrs ▸ hsm ▸ hsums, hc, hr, hsm, hrs⟩

theorem C8_witness :
    (2 : Nat) ≤ 2 ∧ (1000 : Int) ≤ 1000 ∧
    (2 : Nat) = MilestoneManager.mCount
      (MilestoneManager.run MilestoneManager.State.empty
        [MilestoneManager.Op.init 1 5,
         MilestoneManager.Op.register 1 2 300 true 9,
         MilestoneManager.Op.register 1 3 700 true 9,
         MilestoneManager.Op.release 2 (List.replicate 64 0) 10,
         MilestoneManager.Op.release 3 (List.replicate 64 0) 11]).milestones 1 ∧
    (2 : Nat) = MilestoneManager.rCount
      (MilestoneManager.run MilestoneManager.State.empty
        [MilestoneManager.Op.init 1 5,
         MilestoneManager.Op.register 1 2 300 true 9,
         MilestoneManager.Op.register 1 3 700 true 9,
         MilestoneManager.Op.release 2 (List.replicate 64 0) 10,
         MilestoneManager.Op.release 3 (List.replicate 64 0) 11]).milestones 1 ∧
    (1000 : Int) = MilestoneManager.mSum
      (MilestoneManager.run MilestoneManager.State.empty
        [MilestoneManager.Op.init 1 5,
         MilestoneManager.Op.register 1 2 300 true 9,
         MilestoneManager.Op.register 1 3 700 true 9,
         MilestoneManager.Op.release 2 (List.replicate 64 0) 10,
         MilestoneManager.Op.release 3 (List.replicate 64 0) 11]).milestones 1 ∧
    (1000 : Int) = MilestoneManager.rSum
      (MilestoneManager.run MilestoneManager.State.empty
        [MilestoneManager.Op.init 1 5,
         MilestoneManager.Op.register 1 2 300 true 9,
         MilestoneManager.Op.register 1 3 700 true 9,
         MilestoneManager.Op.release 2 (List.replicate 64 0) 10,
         MilestoneManager.Op.release 3 (List.replicate 64 0) 11]).milestones 1 :=
  C8_summary_matches_milestone_records.2.2.1
    (MilestoneManager.run MilestoneManager.State.empty
      [MilestoneManager.Op.init 1 5,
       MilestoneManager.Op.register 1 2 300 true 9,
       MilestoneManager.Op.register 1 3 700 true 9,
       MilestoneManager.Op.release 2 (List.replicate 64 0) 10,
       MilestoneManager.Op.release 3 (List.replicate 64 0) 11])
    (C8_summary_matches_milestone_records.2.1 MilestoneManager.State.empty
      [MilestoneManager.Op.init 1 5,
       MilestoneManager.Op.register 1 2 300 true 9,
       MilestoneManager.Op.register 1 3 700 true 9,
       MilestoneManager.Op.release 2 (List.replicate 64 0) 10,
       MilestoneManager.Op.release 3 (List.replicate 64 0) 11]
      C8_summary_matches_milestone_records.1)
    1 ⟨1, 2, 2, 1000, 1000⟩ (by decide)

/-- Claim C9: `get_balance` returns `total_deposited - total_claimed` when
an escrow account exists and 0 (with `get_escrow_info` returning none)
when no account exists, never an error; depositing 500 then claiming 200
yields `get_balance = 300`. -/
theorem C9_get_balance_total :
    (∀ s p info, FundingEscrow.get_escrow_info s p = some info →
      FundingEscrow.get_balance s p =
        info.total_deposited - info.total_claimed) ∧
    (∀ s p, FundingEscrow.get_escrow_info s p = none →
      FundingEscrow.get_balance s p = 0) ∧
    FundingEscrow.get_escrow_info FundingEscrow.State.empty 1 = none ∧
    FundingEscrow.get_balance
      (FundingEscrow.run 7 ((FundingEscrow.init FundingEscrow.State.empty 3 5).2)
        [FundingEscrow.Op.deposit 1 2 500 "donation",
         FundingEscrow.Op.claim 2 200 (List.replicate 64 0)]) 2 = 300 := by
  refine ⟨?_, ?_, by rfl, by decide⟩
  · intro s p info hg
    simp [FundingEscrow.get_balance,
      show AList.get s.escrows p = some info from hg]
  · intro s p hg
    simp [FundingEscrow.get_balance,
      show AList.get s.escrows p = none from hg]

theorem C9_witness :
    FundingEscrow.get_balance
      { token := some 3, escrows := [(1, ⟨1, 500, 200, 0⟩)] } 1 =
      (500 : Int) - 200 :=
  C9_get_balance_total.1
    { token := some 3, escrows := [(1, ⟨1, 500, 200, 0⟩)] }
    1 ⟨1, 500, 200, 0⟩ (by rfl)

/-- Claim C10: registering an already-registered project id fails with
"Project already registered" and changes nothing, a successful `register`
increments `get_project_count` by exactly one (and a failed one leaves it
unchanged), so in every reachable registry state the counter equals the
number of distinct stored project ids. -/
theorem C10_register_once_and_count :
    (∀ s o pid m ts info, AList.get s.projects pid = some info →
      ProjectRegistry.register s o pid m ts =
        (.error "Project already registered", s)) ∧
    (∀ s o pid m ts, (ProjectRegistry.register s o pid m ts).1 = .ok () →
      ProjectRegistry.get_project_count (ProjectRegistry.register s o pid m ts).2 =
        ProjectRegistry.get_project_count s + 1) ∧
    (∀ s o pid m ts e, (ProjectRegistry.register s o pid m ts).1 = .error e →
      (ProjectRegistry.register s o pid m ts).2 = s) ∧
    ProjectRegistry.CInv ProjectRegistry.State.empty ∧
    (∀ s ops, ProjectRegistry.CInv s →
      ProjectRegistry.CInv (ProjectRegistry.run s ops)) ∧
    (∀ s, ProjectRegistry.CInv s →
      ProjectRegistry.get_project_count s = s.projects.length ∧
      (s.projects.map Prod.fst).Nodup) := by
  refine ⟨?_, ?_, ?_, ProjectRegistry.cinv_empty,
    fun s ops h => ProjectRegistry.cinv_run s ops h, fun s h => h⟩
  · intro s o pid m ts info hg
    simp [ProjectRegistry.register, hg]
  · intro s o pid m ts hok
    cases hg : AList.get s.projects pid with
    | some w => simp [ProjectRegistry.register, hg] at hok
    | none => simp [ProjectRegistry.register, ProjectRegistry.get_project_count, hg]
  · intro s o pid m ts e he
    cases hg : AList.get s.projects pid with
    | some w => simp [ProjectRegistry.register, hg]
    | none => simp [ProjectRegistry.register, hg] at he

theorem C10_witness :
    ProjectRegistry.register
        { projects := [(1, ⟨4, 1, "u", 0⟩)], projectCount := some 1 }
        9 1 "v" 3 =
      (.error "Project already registered",
        { projects := [(1, ⟨4, 1, "u", 0⟩)], projectCount := some 1 }) :=
  C10_register_once_and_count.1
    { projects := [(1, ⟨4, 1, "u", 0⟩)], projectCount := some 1 }
    9 1 "v" 3 ⟨4, 1, "u", 0⟩ (by rfl)

end FundHub
